import Mathlib

/-!
# cfggen: validation of configuration values before YAML generation

A shallow embedding of `scripts/cfggen/main.go`.

* Go values seen through `reflect` are the inductive type `Value`; only what the
  program observes is kept: the kind of a value, the fields of a struct with
  their names and raw tag strings, the target of a pointer, the dynamic value
  of an interface, the elements of containers.
* Errors are the error values of `github.com/pkg/errors`: a root cause and the
  messages wrapped around it, with format strings and operands kept as in the
  source (`GoError.Error` renders them).
* The struct tag parser `structtag.Parse` and the YAML encoder belong to
  third-party libraries; the program is embedded with both as parameters.
  `structtag.Parse` below is a reference model of the parser used to evaluate
  the program on concrete values.
-/

set_option autoImplicit false

/-! ## Errors (`github.com/pkg/errors`, `errors`) -/

/-- A Go `error` value built by `errors.New`, `errors.Errorf`, `errors.Wrap`
or `errors.Wrapf`; format strings and operands are kept unrendered. -/
inductive GoError where
  | New (text : String)
  | Errorf (format : String) (args : List String)
  | Wrap (cause : GoError) (message : String)
  | Wrapf (cause : GoError) (format : String) (args : List String)
deriving DecidableEq, Repr

/-- The `fmt.Sprintf` verbs the program uses, each with its string operand:
`%s` and `%v` print the operand, `%q` prints it quoted by `quote`
(`strconv.Quote`), `%%` prints a percent sign. -/
def SprintfChars (quote : String → String) : List Char → List String → List Char
  | [], _ => []
  | '%' :: '%' :: rest, args => '%' :: SprintfChars quote rest args
  | '%' :: 's' :: rest, a :: args => a.data ++ SprintfChars quote rest args
  | '%' :: 'v' :: rest, a :: args => a.data ++ SprintfChars quote rest args
  | '%' :: 'q' :: rest, a :: args => (quote a).data ++ SprintfChars quote rest args
  | c :: rest, args => c :: SprintfChars quote rest args

/-- Rendering of a format string with its operands: `fmt.Sprintf(format, args...)`. -/
def Sprintf (quote : String → String) (format : String) (args : List String) : String :=
  String.mk (SprintfChars quote format.data args)

/-- The message of an error, `err.Error()`: a wrapped error prints its own
message, a colon and a space, then the message of its cause. -/
def GoError.Error (quote : String → String) : GoError → String
  | .New text => text
  | .Errorf format args => Sprintf quote format args
  | .Wrap cause message => message ++ ": " ++ cause.Error quote
  | .Wrapf cause format args => Sprintf quote format args ++ ": " ++ cause.Error quote

/-- The root of an error chain, `errors.Cause(err)`. -/
def GoError.Cause : GoError → GoError
  | .Wrap cause _ => cause.Cause
  | .Wrapf cause _ _ => cause.Cause
  | e => e

/-- What a call returning `error` does: return `nil`, return an error, or
panic. -/
inductive Outcome where
  | ok
  | error (e : GoError)
  | panic
deriving DecidableEq, Repr

/-! ## Values seen through `reflect` -/

/-- The kinds of `reflect.Kind`. -/
inductive Kind where
  | Invalid | Bool | Int | Int8 | Int16 | Int32 | Int64
  | Uint | Uint8 | Uint16 | Uint32 | Uint64 | Uintptr
  | Float32 | Float64 | Complex64 | Complex128
  | Array | Chan | Func | Interface | Map | Ptr | Slice | String | Struct
  | UnsafePointer
deriving DecidableEq, Repr

/-- The kinds whose values have no parts that `reflect` can descend into. -/
inductive LeafKind where
  | Bool | Int | Int8 | Int16 | Int32 | Int64
  | Uint | Uint8 | Uint16 | Uint32 | Uint64 | Uintptr
  | Float32 | Float64 | Complex64 | Complex128
  | Chan | Func | String | UnsafePointer
deriving DecidableEq, Repr

/-- The `reflect.Kind` of a leaf kind. -/
def LeafKind.toKind : LeafKind → Kind
  | .Bool => .Bool | .Int => .Int | .Int8 => .Int8 | .Int16 => .Int16
  | .Int32 => .Int32 | .Int64 => .Int64
  | .Uint => .Uint | .Uint8 => .Uint8 | .Uint16 => .Uint16 | .Uint32 => .Uint32
  | .Uint64 => .Uint64 | .Uintptr => .Uintptr
  | .Float32 => .Float32 | .Float64 => .Float64
  | .Complex64 => .Complex64 | .Complex128 => .Complex128
  | .Chan => .Chan | .Func => .Func | .String => .String
  | .UnsafePointer => .UnsafePointer

/-- A field of a struct type, `reflect.StructField`: its Go identifier and its
raw tag string. -/
structure StructField where
  Name : String
  Tag : String
deriving DecidableEq, Repr

/-- A Go value as `reflect.Value` shows it. `Invalid` is the zero
`reflect.Value`. A pointer is nil (`none`) or has a target; an interface is
nil (`none`) or holds a dynamic value. A leaf carries its literal text. -/
inductive Value where
  | Invalid
  | Leaf (kind : LeafKind) (literal : String)
  | Array (elems : List Value)
  | Slice (elems : List Value)
  | Map (entries : List (Value × Value))
  | Struct (fields : List (StructField × Value))
  | Ptr (target : Option Value)
  | Interface (dynamic : Option Value)

/-- A value of static type `interface{}`: nil, or a dynamic value. -/
abbrev Iface := Option Value

/-- The kind of a value, `v.Kind()`. -/
def Value.Kind : Value → Kind
  | .Invalid => .Invalid
  | .Leaf k _ => k.toKind
  | .Array _ => .Array
  | .Slice _ => .Slice
  | .Map _ => .Map
  | .Struct _ => .Struct
  | .Ptr _ => .Ptr
  | .Interface _ => .Interface

/-- The value an interface holds, `v.Elem()` on a value of kind Interface: the
zero `reflect.Value` when the interface is nil. -/
def Value.Elem : Option Value → Value
  | none => .Invalid
  | some x => x

/-- The reflection of an `interface{}` argument, `reflect.ValueOf(obj)`: the
dynamic value, or the zero `reflect.Value` for a nil interface. -/
def ValueOf (obj : Iface) : Value :=
  Value.Elem obj

/-! ## Struct tags (`github.com/fatih/structtag`) -/

namespace structtag

/-- One `key:"name,opt1,opt2"` entry of a struct tag. -/
structure Tag where
  Key : String
  Name : String
  Options : List String
deriving DecidableEq, Repr

/-- What `structtag.Parse` returns, a pair `(*Tags, error)`: a tag set, an
error, or neither (a nil `*Tags` with a nil error). -/
inductive ParseResult where
  | tags (ts : List Tag)
  | nilTags
  | err (e : GoError)
deriving DecidableEq, Repr

/-- The error for a key that is not followed by a colon and a value. -/
def errTagSyntax : GoError := .New "bad syntax for struct tag pair"

/-- The error for an empty key. -/
def errTagKeySyntax : GoError := .New "bad syntax for struct tag key"

/-- The error for a value that is not a quoted string. -/
def errTagValueSyntax : GoError := .New "bad syntax for struct tag value"

/-- The error of `Get` for a key that no tag has. -/
def errTagNotExist : GoError := .New "tag does not exist"

/-- The method `(*Tags).Get` on a non-nil tag set: the first tag with the
given key, or `errTagNotExist`. -/
def Get : List Tag → String → Except GoError Tag
  | [], _ => .error errTagNotExist
  | t :: ts, key => if t.Key = key then .ok t else Get ts key

end structtag

/-! ### Reference model of `structtag.Parse`

Strings are read as sequences of characters. A byte produced by a `\x` or
octal escape is kept as the character with that code. -/

namespace structtag

/-- The value of a hexadecimal digit, `unhex`. -/
def unhex (c : Char) : Option Nat :=
  if '0' ≤ c ∧ c ≤ '9' then some (c.toNat - '0'.toNat)
  else if 'a' ≤ c ∧ c ≤ 'f' then some (c.toNat - 'a'.toNat + 10)
  else if 'A' ≤ c ∧ c ≤ 'F' then some (c.toNat - 'A'.toNat + 10)
  else none

/-- The number written by `n` hexadecimal digits at the head of the input, with
the input after them; `none` when a digit is missing. -/
def readHex : Nat → Nat → List Char → Option (Nat × List Char)
  | 0, v, s => some (v, s)
  | _ + 1, _, [] => none
  | n + 1, v, c :: s =>
    match unhex c with
    | none => none
    | some x => readHex n (v * 16 + x) s

/-- The value of an octal digit. -/
def unoct (c : Char) : Option Nat :=
  if '0' ≤ c ∧ c ≤ '7' then some (c.toNat - '0'.toNat) else none

/-- Whether a code point is a Unicode scalar value, `utf8.ValidRune`. -/
def validRune (v : Nat) : Bool :=
  v < 0xD800 || (0xE000 ≤ v && v ≤ 0x10FFFF)

/-- The character denoted by an escape sequence, after the backslash: the
second half of `strconv.UnquoteChar` with quote `"`. -/
def unquoteEscape (c : Char) (s : List Char) : Option (Char × List Char) :=
  if c = 'a' then some (Char.ofNat 7, s)
  else if c = 'b' then some (Char.ofNat 8, s)
  else if c = 'f' then some (Char.ofNat 12, s)
  else if c = 'n' then some (Char.ofNat 10, s)
  else if c = 'r' then some (Char.ofNat 13, s)
  else if c = 't' then some (Char.ofNat 9, s)
  else if c = 'v' then some (Char.ofNat 11, s)
  else if c = 'x' then
    (readHex 2 0 s).map (fun r => (Char.ofNat r.1, r.2))
  else if c = 'u' then
    (readHex 4 0 s).bind (fun r => if validRune r.1 then some (Char.ofNat r.1, r.2) else none)
  else if c = 'U' then
    (readHex 8 0 s).bind (fun r => if validRune r.1 then some (Char.ofNat r.1, r.2) else none)
  else if '0' ≤ c ∧ c ≤ '7' then
    match s with
    | d1 :: d2 :: s2 =>
      match unoct d1, unoct d2 with
      | some x1, some x2 =>
        if ((c.toNat - '0'.toNat) * 8 + x1) * 8 + x2 > 255 then none
        else some (Char.ofNat (((c.toNat - '0'.toNat) * 8 + x1) * 8 + x2), s2)
      | _, _ => none
    | _ => none
  else if c = '\\' then some ('\\', s)
  else if c = '"' then some ('"', s)
  else none

/-- One character of a double-quoted Go string literal, `strconv.UnquoteChar`
with quote `"`: the character denoted and the input after it. -/
def unquoteChar : List Char → Option (Char × List Char)
  | [] => none
  | c :: s =>
    if c = '"' then none
    else if c = '\\' then
      match s with
      | [] => none
      | e :: s2 => unquoteEscape e s2
    else some (c, s)

/-- The text between the quotes of a double-quoted Go string literal,
unescaped: `strconv.Unquote` on the literal. A newline is a syntax error. The
first argument bounds the number of characters read. -/
def unquoteBody : Nat → List Char → Option (List Char)
  | _, [] => some []
  | 0, _ :: _ => none
  | fuel + 1, c :: s =>
    if c = '\n' then none
    else
      match unquoteChar (c :: s) with
      | none => none
      | some (r, rest) => (unquoteBody fuel rest).map (fun out => r :: out)

/-- The scan for the closing quote of a tag value, started after the opening
quote: a backslash skips the character after it. Gives the text before the
closing quote and the input after it, `none` when the input ends first. -/
def scanQuoted : List Char → Option (List Char × List Char)
  | [] => none
  | c :: rest =>
    if c = '"' then some ([], rest)
    else if c = '\\' then
      match rest with
      | [] => none
      | d :: rest2 => (scanQuoted rest2).map (fun r => (c :: d :: r.1, r.2))
    else (scanQuoted rest).map (fun r => (c :: r.1, r.2))

/-- The pieces of a string between commas, `strings.Split(value, ",")`. -/
def splitComma : List Char → List (List Char)
  | [] => [[]]
  | c :: cs =>
    match splitComma cs with
    | [] => [[c]]
    | w :: ws => if c = ',' then [] :: w :: ws else (c :: w) :: ws

/-- A character that may stand in a tag key: above the space, and not a colon,
a quote or DEL. -/
def keyChar (c : Char) : Bool :=
  decide (' ' < c) && c != ':' && c != '"' && c != Char.ofNat 0x7f

/-- The tag built from a key and an unquoted value: the name is the piece before
the first comma, the options are the pieces after it. -/
def mkTag (key : List Char) (value : List Char) : Tag :=
  match splitComma value with
  | [] => ⟨String.mk key, "", []⟩
  | name :: options => ⟨String.mk key, String.mk name, options.map String.mk⟩

/-- One round of the loop of `structtag.Parse` on input that starts with a
key: scan the key up to the colon, scan the quoted value, unquote and split it.
Gives the tag read and the input after it. -/
def parseOne (tag : List Char) : Except GoError (Tag × List Char) :=
  match tag.span keyChar with
  | ([], _) => .error errTagKeySyntax
  | (_ :: _, []) => .error errTagSyntax
  | (_ :: _, [_]) => .error errTagSyntax
  | (k :: key, c :: q :: rest) =>
    if c ≠ ':' then .error errTagSyntax
    else if q ≠ '"' then .error errTagValueSyntax
    else
      match scanQuoted rest with
      | none => .error errTagValueSyntax
      | some (body, rest2) =>
        match unquoteBody body.length body with
        | none => .error errTagValueSyntax
        | some value => .ok (mkTag (k :: key) value, rest2)

/-- The loop of `structtag.Parse`: skip spaces, stop at the end of the input,
read one tag and go on with the rest. The first argument bounds the number of
rounds; every round consumes input. -/
def parseLoop : Nat → List Char → List Tag → Except GoError (List Tag)
  | 0, _, acc => .ok acc
  | fuel + 1, tag, acc =>
    match tag.dropWhile (fun c => c == ' ') with
    | [] => .ok acc
    | c :: cs =>
      match parseOne (c :: cs) with
      | .error e => .error e
      | .ok (t, rest) => parseLoop fuel rest (acc ++ [t])

/-- Reference model of `structtag.Parse(tag)`: the tags of a conventional
struct tag string, in order; a non-empty string without any tag gives neither
a tag set nor an error. -/
def Parse (tag : String) : ParseResult :=
  match parseLoop tag.length tag.data [] with
  | .error e => .err e
  | .ok tags => if tag ≠ "" ∧ tags = [] then .nilTags else .tags tags

end structtag

/-! ## The program -/

namespace cfggen

/-- The struct tag parser the program is linked with: `structtag.Parse`. -/
abbrev TagParser := String → structtag.ParseResult

mutual
/-- The recursive check of `main.go`, by the kind of the value: a struct is
checked field by field, a pointer is refused, an interface is checked through
the value it holds (`v.Elem()`, the zero `reflect.Value` of kind Invalid when
the interface is nil), every other kind is accepted. -/
def checkForOmitEmptyTagOptionRec (parse : TagParser) : Value → Outcome
  | .Struct fields => checkFields parse fields
  | .Ptr _ => .error (.New "nil pointers are not allowed in configuration")
  | .Interface none => .ok
  | .Interface (some x) => checkForOmitEmptyTagOptionRec parse x
  | .Invalid => .ok
  | .Leaf _ _ => .ok
  | .Array _ => .ok
  | .Slice _ => .ok
  | .Map _ => .ok
/-- The loop over the fields of a struct, from field `i` on: parse the tag, get
its `yaml` entry, refuse the option `omitempty`, check the value of the field,
and go on with the next field. Calling `Get` on a nil tag set panics. -/
def checkFields (parse : TagParser) : List (StructField × Value) → Outcome
  | [] => .ok
  | (f, x) :: rest =>
    match parse f.Tag with
    | .err e => .error (.Wrapf e "%s: failed to parse tag %q" [f.Name, f.Tag])
    | .nilTags => .panic
    | .tags ts =>
      match structtag.Get ts "yaml" with
      | .error e => .error (.Wrapf e "%s: failed to get tag %q" [f.Name, f.Tag])
      | .ok tag =>
        if "omitempty" ∈ tag.Options then
          .error (.Errorf "omitempty is forbidden for config, but spotted on field '%s'" [f.Name])
        else
          match checkForOmitEmptyTagOptionRec parse x with
          | .error e => .error (.Wrapf e "%s" [f.Name])
          | .panic => .panic
          | .ok => checkFields parse rest
end

/-- The entry point of the check: `checkForOmitEmptyTagOptionRec(reflect.ValueOf(obj))`. -/
def checkForOmitEmptyTagOption (parse : TagParser) (obj : Iface) : Outcome :=
  checkForOmitEmptyTagOptionRec parse (ValueOf obj)

/-- What has been written to an `io.Writer`. -/
abbrev Sink := List Char

/-- The YAML encoder the program is linked with, `yaml.NewEncoder(w).Encode(obj)`:
from the value and the sink before the call to the sink after it and the
outcome of the call. -/
abbrev Encoder := Iface → Sink → Sink × Outcome

/-- The function `generate`: check the value; when the check fails, wrap its
error with "invalid type" and leave; otherwise hand the value to the encoder. -/
def generate (parse : TagParser) (encode : Encoder) (obj : Iface) (w : Sink) : Sink × Outcome :=
  match checkForOmitEmptyTagOption parse obj with
  | .error err => (w, .error (.Wrap err "invalid type"))
  | .panic => (w, .panic)
  | .ok => encode obj w

/-- A Go `map[string]interface{}`, as the list of its entries. -/
abbrev GoMap := List (String × Iface)

/-- The lookup `c, ok := m[key]`. -/
def GoMap.index : GoMap → String → Option Iface
  | [], _ => none
  | (k, c) :: rest, key => if k = key then some c else GoMap.index rest key

/-- The assignment `m[key] = c`. -/
def GoMap.assign : GoMap → String → Iface → GoMap
  | [], key, c => [(key, c)]
  | (k, c0) :: rest, key, c =>
    if k = key then (k, c) :: rest else (k, c0) :: GoMap.assign rest key c

/-- The function `init`: every entry of `bucketConfigs` is registered under
the type name of its configuration value (`name`, the `%T` form), wrapped in a
`client.BucketConfig`; the possible values are the keys of the registry. The
type name and the `client.BucketConfig` constructor are parameters; the lists
fix one order of iteration over the Go maps. -/
def init (name : Iface → String) (BucketConfig : String → Iface → Value)
    (bucketConfigs : List (String × Iface)) : GoMap × List String :=
  let configs := bucketConfigs.foldl
    (fun (m : GoMap) tc => m.assign (name tc.2) (some (BucketConfig tc.1 tc.2))) []
  (configs, configs.map Prod.fst)

/-- How a process ends: `os.Exit(code)`, with a return from `main` as code 0,
or a panic. -/
inductive Termination where
  | exit (code : Nat)
  | panic
deriving DecidableEq, Repr

/-- What a run of the program leaves behind: the bytes on standard output,
the errors logged on standard error under the key `err`, and how it ended. -/
structure Run where
  stdout : Sink
  logged : List GoError
  termination : Termination
deriving DecidableEq, Repr

/-- The function `main`, from the result of the command line parse on
(`parsed`: an error, or the value of the flag `name`), with standard output
empty at the start. -/
def main (parse : TagParser) (encode : Encoder) (configs : GoMap)
    (possibleValues : List String) (parsed : Except GoError String) : Run :=
  match parsed with
  | .error err => ⟨[], [err], .exit 1⟩
  | .ok structName =>
    match configs.index structName with
    | some c =>
      match generate parse encode c [] with
      | (out, .error err) => ⟨out, [err], .exit 1⟩
      | (out, .panic) => ⟨out, [], .panic⟩
      | (out, .ok) => ⟨out, [], .exit 0⟩
    | none =>
      ⟨[], [.Errorf "%v struct not found. Possible values %v"
              [structName, String.intercalate "," possibleValues]], .exit 1⟩

end cfggen

/-! ## Notions used to state the properties -/

namespace cfggen

open structtag

/-- The `yaml` entry of the tag of a field, as the check reads it: the first
entry with key `yaml` of a tag that parses to a tag set. -/
def yamlTag (parse : TagParser) (f : StructField) : Option Tag :=
  match parse f.Tag with
  | .tags ts =>
    match Get ts "yaml" with
    | .ok tag => some tag
    | .error _ => none
  | .nilTags => none
  | .err _ => none

/-- The field carries the option `omitempty` in its `yaml` tag. -/
def carriesOmitempty (parse : TagParser) (f : StructField) : Bool :=
  match yamlTag parse f with
  | some tag => decide ("omitempty" ∈ tag.Options)
  | none => false

/-- The field declares a `yaml` tag that does not carry `omitempty`. -/
def cleanTag (parse : TagParser) (f : StructField) : Bool :=
  match yamlTag parse f with
  | some tag => !decide ("omitempty" ∈ tag.Options)
  | none => false

/-- The error of a nested failure: `e` wrapped with the names of the fields
passed on the way down, the outermost name last to be wrapped and so first in
the message. -/
def wrapPath : List String → GoError → GoError
  | [], e => e
  | name :: path, e => .Wrapf (wrapPath path e) "%s" [name]

/-- The field `f` with value `x` is reached from the value through nested
struct fields and non-nil interfaces; the path lists the names of the
enclosing fields, outermost first. These are the fields the check visits when
nothing stops it. -/
inductive Reaches : Value → List String → StructField → Value → Prop where
  | field {fields : List (StructField × Value)} {f : StructField} {x : Value} :
      (f, x) ∈ fields → Reaches (.Struct fields) [] f x
  | inner {fields : List (StructField × Value)} {g : StructField} {y : Value}
      {path : List String} {f : StructField} {x : Value} :
      (g, y) ∈ fields → Reaches y path f x → Reaches (.Struct fields) (g.Name :: path) f x
  | iface {y : Value} {path : List String} {f : StructField} {x : Value} :
      Reaches y path f x → Reaches (.Interface (some y)) path f x

/-- The value `t` is the first place where the check of `v` can stop: it is
reached through struct fields with clean tags and non-nil interfaces, and in
every struct on the way all the fields before the one entered pass the check.
The path lists the names of the fields entered, outermost first. -/
inductive FirstAt (parse : TagParser) : Value → List String → Value → Prop where
  | here (t : Value) : FirstAt parse t [] t
  | field {pre post : List (StructField × Value)} {g : StructField} {y : Value}
      {path : List String} {t : Value} :
      (∀ fx ∈ pre, checkFields parse [fx] = .ok) → cleanTag parse g = true →
      FirstAt parse y path t →
      FirstAt parse (.Struct (pre ++ (g, y) :: post)) (g.Name :: path) t
  | iface {y : Value} {path : List String} {t : Value} :
      FirstAt parse y path t → FirstAt parse (.Interface (some y)) path t

mutual
/-- Every struct field anywhere inside the value satisfies `p`: inside nested
structs, interfaces, pointer targets, and the elements of arrays, slices and
maps. -/
def allFields (p : StructField → Value → Bool) : Value → Bool
  | .Struct fields => allFieldsOfStruct p fields
  | .Ptr none => true
  | .Ptr (some x) => allFields p x
  | .Interface none => true
  | .Interface (some x) => allFields p x
  | .Array elems => allFieldsOfList p elems
  | .Slice elems => allFieldsOfList p elems
  | .Map entries => allFieldsOfEntries p entries
  | .Invalid => true
  | .Leaf _ _ => true
/-- The fields of a struct and all fields inside their values satisfy `p`. -/
def allFieldsOfStruct (p : StructField → Value → Bool) : List (StructField × Value) → Bool
  | [] => true
  | (f, x) :: rest => p f x && allFields p x && allFieldsOfStruct p rest
/-- All fields inside the values of a list satisfy `p`. -/
def allFieldsOfList (p : StructField → Value → Bool) : List Value → Bool
  | [] => true
  | x :: rest => allFields p x && allFieldsOfList p rest
/-- All fields inside the keys and values of map entries satisfy `p`. -/
def allFieldsOfEntries (p : StructField → Value → Bool) : List (Value × Value) → Bool
  | [] => true
  | (k, x) :: rest => allFields p k && allFields p x && allFieldsOfEntries p rest
end

/-- A value that is nil or absent: a nil pointer, a nil interface, the zero
`reflect.Value`. -/
def isNil : Value → Bool
  | .Ptr none => true
  | .Interface none => true
  | .Invalid => true
  | _ => false

/-- The names of the fields entered, each followed by a colon and a space. -/
def pathPrefix : List String → String
  | [] => ""
  | name :: path => name ++ ": " ++ pathPrefix path

/-- The value is a pointer, or an interface holding one. -/
def holdsPointer : Value → Bool
  | .Ptr _ => true
  | .Interface (some x) => holdsPointer x
  | _ => false

/-- A sample encoder: it appends the mark `#` to the sink and returns `nil`. -/
def markEncoder : Encoder :=
  fun _ w => (w ++ ['#'], .ok)

/-! ### Sample values -/

/-- A struct of two string fields, `Endpoint` and `Region`, tagged `endpoint`
and `region`, both empty. -/
def sampleS3 : Value :=
  .Struct [(⟨"Endpoint", "yaml:\"endpoint\""⟩, .Leaf .String ""),
           (⟨"Region", "yaml:\"region\""⟩, .Leaf .String "")]

/-- The same struct with `Region` tagged `region,omitempty`. -/
def sampleS3Omitempty : Value :=
  .Struct [(⟨"Endpoint", "yaml:\"endpoint\""⟩, .Leaf .String ""),
           (⟨"Region", "yaml:\"region,omitempty\""⟩, .Leaf .String "")]

/-- A struct with the field `Timeout` tagged `timeout,omitempty`, two structs
deep: `Outer.Inner.Timeout`; every struct on the way has a clean field before
the one entered. -/
def sampleNested : Value :=
  .Struct [(⟨"Bucket", "yaml:\"bucket\""⟩, .Leaf .String ""),
           (⟨"Outer", "yaml:\"outer\""⟩,
            .Struct [(⟨"Inner", "yaml:\"inner\""⟩,
                      .Struct [(⟨"Idle", "yaml:\"idle\""⟩, .Leaf .Int64 "0"),
                               (⟨"Timeout", "yaml:\"timeout,omitempty\""⟩, .Leaf .Int64 "0"),
                               (⟨"Debug", "yaml:\"debug\""⟩, .Leaf .Bool "false")])])]

/-- A struct `Outer` whose first field `P` is a nil pointer and whose second
field `Field` is tagged `field,omitempty`. -/
def samplePointerBeforeOmitempty : Value :=
  .Struct [(⟨"Outer", "yaml:\"outer\""⟩,
            .Struct [(⟨"P", "yaml:\"p\""⟩, .Ptr none),
                     (⟨"Field", "yaml:\"field,omitempty\""⟩, .Leaf .String "")])]

/-- A struct with one field `A` of type string and no tag. -/
def sampleUntagged : Value :=
  .Struct [(⟨"A", ""⟩, .Leaf .String "")]

/-- A struct with one field `Config` of type `interface{}` holding a non-nil
pointer to an empty struct. -/
def sampleInterfaceWithPointer : Value :=
  .Struct [(⟨"Config", "yaml:\"config\""⟩, .Interface (some (.Ptr (some (.Struct [])))))]

/-- A struct with a field `Type` and a field `Config` of type `interface{}`
that is nil. -/
def sampleNilInterface : Value :=
  .Struct [(⟨"Type", "yaml:\"type\""⟩, .Leaf .String ""),
           (⟨"Config", "yaml:\"config\""⟩, .Interface none)]

/-- A struct with a field `Items`, a slice of one struct whose field `P` is a
nil pointer. -/
def samplePointerInSlice : Value :=
  .Struct [(⟨"Items", "yaml:\"items\""⟩,
            .Slice [.Struct [(⟨"P", "yaml:\"p\""⟩, .Ptr none)]])]

/-- A struct whose field `Region` is tagged `region,omitempty` and whose next
field `P` is a nil pointer. -/
def sampleOmitemptyBeforePointer : Value :=
  .Struct [(⟨"Region", "yaml:\"region,omitempty\""⟩, .Leaf .String ""),
           (⟨"P", "yaml:\"p\""⟩, .Ptr none)]

/-- A struct with a clean field and a struct `Outer` whose field `P` is a
non-nil pointer to an integer. -/
def sampleNestedPointer : Value :=
  .Struct [(⟨"Bucket", "yaml:\"bucket\""⟩, .Leaf .String ""),
           (⟨"Outer", "yaml:\"outer\""⟩,
            .Struct [(⟨"P", "yaml:\"p\""⟩, .Ptr (some (.Leaf .Int "0")))])]

/-- A slice holding a nil pointer and a struct whose field is tagged
`f,omitempty`. -/
def sampleSlice : Value :=
  .Slice [.Ptr none, .Struct [(⟨"F", "yaml:\"f,omitempty\""⟩, .Leaf .String "")]]

/-- A struct with a clean field `Bucket` followed by an untagged field `A`. -/
def sampleSecondUntagged : Value :=
  .Struct [(⟨"Bucket", "yaml:\"bucket\""⟩, .Leaf .String ""),
           (⟨"A", ""⟩, .Leaf .String ""),
           (⟨"B", "yaml:\"b,omitempty\""⟩, .Leaf .String "")]

/-- A struct with a clean field `Bucket` followed by a field `A` whose tag is
a single space. -/
def sampleBlankTag : Value :=
  .Struct [(⟨"Bucket", "yaml:\"bucket\""⟩, .Leaf .String ""),
           (⟨"A", " "⟩, .Leaf .String "")]

/-- A struct with nested struct, slice and map fields, all tags clean. -/
def sampleClean : Value :=
  .Struct [(⟨"Bucket", "yaml:\"bucket\""⟩, .Leaf .String ""),
           (⟨"HTTPConfig", "yaml:\"http_config\""⟩,
            .Struct [(⟨"Insecure", "yaml:\"insecure_skip_verify\""⟩, .Leaf .Bool "false")]),
           (⟨"Tags", "yaml:\"tags\""⟩, .Slice []),
           (⟨"Meta", "yaml:\"meta\" json:\"meta,omitempty\""⟩, .Map [])]

end cfggen

/-! ## The reference parser consumes its input

Every round of the loops of the reference parser consumes input, so the bounds
on the number of rounds are never reached. -/

namespace structtag

theorem readHex_length : ∀ (n v : Nat) (s : List Char) (r : Nat × List Char),
    readHex n v s = some r → r.2.length + n = s.length
  | 0, v, s, r, h => by
    simp only [readHex] at h
    cases h
    rfl
  | n + 1, v, [], r, h => by simp [readHex] at h
  | n + 1, v, c :: s, r, h => by
    simp only [readHex] at h
    split at h
    · simp at h
    · have := readHex_length n _ s r h
      simp only [List.length_cons]
      omega

theorem readHexRune_length (n : Nat) (s : List Char) (r : Char) (rest : List Char)
    (h : ((readHex n 0 s).bind
      (fun r => if validRune r.1 then some (Char.ofNat r.1, r.2) else none)) = some (r, rest)) :
    rest.length ≤ s.length := by
  simp only [Option.bind_eq_some] at h
  obtain ⟨a, ha, hr⟩ := h
  have := readHex_length _ _ _ _ ha
  split at hr
  · cases hr
    omega
  · cases hr

theorem unquoteEscape_length (c : Char) (s : List Char) (r : Char) (rest : List Char)
    (h : unquoteEscape c s = some (r, rest)) : rest.length ≤ s.length := by
  unfold unquoteEscape at h
  by_cases h1 : c = 'a'
  · rw [if_pos h1] at h; cases h; exact Nat.le_refl _
  rw [if_neg h1] at h
  by_cases h2 : c = 'b'
  · rw [if_pos h2] at h; cases h; exact Nat.le_refl _
  rw [if_neg h2] at h
  by_cases h3 : c = 'f'
  · rw [if_pos h3] at h; cases h; exact Nat.le_refl _
  rw [if_neg h3] at h
  by_cases h4 : c = 'n'
  · rw [if_pos h4] at h; cases h; exact Nat.le_refl _
  rw [if_neg h4] at h
  by_cases h5 : c = 'r'
  · rw [if_pos h5] at h; cases h; exact Nat.le_refl _
  rw [if_neg h5] at h
  by_cases h6 : c = 't'
  · rw [if_pos h6] at h; cases h; exact Nat.le_refl _
  rw [if_neg h6] at h
  by_cases h7 : c = 'v'
  · rw [if_pos h7] at h; cases h; exact Nat.le_refl _
  rw [if_neg h7] at h
  by_cases h8 : c = 'x'
  · rw [if_pos h8] at h
    simp only [Option.map_eq_some'] at h
    obtain ⟨a, ha, hr⟩ := h
    have := readHex_length _ _ _ _ ha
    cases hr
    omega
  rw [if_neg h8] at h
  by_cases h9 : c = 'u'
  · rw [if_pos h9] at h; exact readHexRune_length _ _ _ _ h
  rw [if_neg h9] at h
  by_cases h10 : c = 'U'
  · rw [if_pos h10] at h; exact readHexRune_length _ _ _ _ h
  rw [if_neg h10] at h
  by_cases h11 : '0' ≤ c ∧ c ≤ '7'
  · rw [if_pos h11] at h
    split at h
    · split at h
      · split at h
        · cases h
        · cases h
          simp only [List.length_cons]
          omega
      · cases h
    · cases h
  rw [if_neg h11] at h
  by_cases h12 : c = '\\'
  · rw [if_pos h12] at h; cases h; exact Nat.le_refl _
  rw [if_neg h12] at h
  by_cases h13 : c = '"'
  · rw [if_pos h13] at h; cases h; exact Nat.le_refl _
  rw [if_neg h13] at h
  cases h

theorem unquoteChar_length (s : List Char) (r : Char) (rest : List Char)
    (h : unquoteChar s = some (r, rest)) : rest.length < s.length := by
  cases s with
  | nil => simp [unquoteChar] at h
  | cons c s =>
    simp only [unquoteChar] at h
    split at h
    · cases h
    · split at h
      · cases s with
        | nil => cases h
        | cons e s2 =>
          have := unquoteEscape_length e s2 r rest h
          simp only [List.length_cons]
          omega
      · cases h
        simp

theorem unquoteBody_fuel : ∀ (n : Nat) (s : List Char), s.length ≤ n →
    unquoteBody (n + 1) s = unquoteBody n s
  | _, [], _ => by simp [unquoteBody]
  | 0, _ :: _, h => by simp at h
  | n + 1, c :: s, h => by
    rw [unquoteBody, unquoteBody]
    split
    · rfl
    · split
      · rfl
      · rename_i r rest hq
        have hlen := unquoteChar_length _ _ _ hq
        simp only [List.length_cons] at hlen h
        rw [unquoteBody_fuel n rest (by omega)]

theorem scanQuoted_length : ∀ (s : List Char) (r : List Char × List Char),
    scanQuoted s = some r → r.2.length < s.length
  | [], r, h => by simp [scanQuoted] at h
  | c :: rest, r, h => by
    unfold scanQuoted at h
    split at h
    · cases h
      simp
    · split at h
      · cases rest with
        | nil => cases h
        | cons d rest2 =>
          simp only [Option.map_eq_some'] at h
          obtain ⟨a, ha, rfl⟩ := h
          have := scanQuoted_length rest2 a ha
          simp only [List.length_cons]
          omega
      · simp only [Option.map_eq_some'] at h
        obtain ⟨a, ha, rfl⟩ := h
        have := scanQuoted_length rest a ha
        simp only [List.length_cons]
        omega

theorem span_length (p : Char → Bool) (s : List Char) :
    (s.span p).1.length + (s.span p).2.length = s.length := by
  rw [List.span_eq_take_drop]
  have := congrArg List.length (List.takeWhile_append_dropWhile p s)
  rw [List.length_append] at this
  exact this

theorem parseOne_length (tag : List Char) (t : Tag) (rest : List Char)
    (h : parseOne tag = .ok (t, rest)) : rest.length < tag.length := by
  have hs := span_length keyChar tag
  unfold parseOne at h
  split at h
  · cases h
  · cases h
  · cases h
  · rename_i k key c q rest1 hspan
    rw [hspan] at hs
    split at h
    · cases h
    · split at h
      · cases h
      · split at h
        · cases h
        · rename_i body rest2 hscan
          have := scanQuoted_length _ _ hscan
          split at h
          · cases h
          · cases h
            simp only [List.length_cons] at hs this ⊢
            omega

theorem dropWhile_length (p : Char → Bool) (s : List Char) :
    (s.dropWhile p).length ≤ s.length := by
  induction s with
  | nil => simp
  | cons c s ih =>
    simp only [List.dropWhile]
    split
    · simp only [List.length_cons]; omega
    · simp

theorem parseLoop_fuel : ∀ (n : Nat) (tag : List Char) (acc : List Tag), tag.length ≤ n →
    parseLoop (n + 1) tag acc = parseLoop n tag acc
  | 0, tag, acc, h => by
    have : tag = [] := List.length_eq_zero.mp (Nat.le_zero.mp h)
    subst this
    simp [parseLoop]
  | n + 1, tag, acc, h => by
    have hd := dropWhile_length (fun c => c == ' ') tag
    rw [parseLoop, parseLoop]
    split
    · rfl
    · rename_i c cs hdrop
      rw [hdrop] at hd
      split
      · rfl
      · rename_i t rest hone
        have := parseOne_length _ _ _ hone
        simp only [List.length_cons] at this hd
        exact parseLoop_fuel n rest _ (by omega)

/-- The bound on the number of rounds in `Parse` is never reached: a larger
bound gives the same result. -/
theorem parseLoop_fuel_add (tag : List Char) (acc : List Tag) (k : Nat) :
    parseLoop (tag.length + k) tag acc = parseLoop tag.length tag acc := by
  induction k with
  | zero => rfl
  | succ k ih =>
    rw [← ih, ← Nat.add_assoc]
    exact parseLoop_fuel _ tag acc (by omega)

/-- The bound on the number of characters in `unquoteBody` is never reached. -/
theorem unquoteBody_fuel_add (s : List Char) (k : Nat) :
    unquoteBody (s.length + k) s = unquoteBody s.length s := by
  induction k with
  | zero => rfl
  | succ k ih =>
    rw [← ih, ← Nat.add_assoc]
    exact unquoteBody_fuel _ s (by omega)

end structtag

/-! ## Properties of the check -/

namespace cfggen

open structtag

/-! ### Lemmas on the field loop -/

theorem checkFields_cons (parse : TagParser) (fx : StructField × Value)
    (rest : List (StructField × Value)) :
    checkFields parse (fx :: rest) =
      match checkFields parse [fx] with
      | .ok => checkFields parse rest
      | o => o := by
  obtain ⟨f, x⟩ := fx
  simp only [checkFields]
  split <;> try rfl
  split <;> try rfl
  split <;> try rfl
  split <;> rfl

theorem checkFields_append (parse : TagParser) (pre rest : List (StructField × Value))
    (hpre : ∀ fx ∈ pre, checkFields parse [fx] = .ok) :
    checkFields parse (pre ++ rest) = checkFields parse rest := by
  induction pre with
  | nil => rfl
  | cons fx pre ih =>
    rw [List.cons_append, checkFields_cons, hpre fx (List.mem_cons_self _ _)]
    exact ih (fun gy hgy => hpre gy (List.mem_cons_of_mem _ hgy))

theorem checkFields_clean (parse : TagParser) (g : StructField) (y : Value)
    (rest : List (StructField × Value)) (hg : cleanTag parse g = true) :
    checkFields parse ((g, y) :: rest) =
      match checkForOmitEmptyTagOptionRec parse y with
      | .error e => .error (.Wrapf e "%s" [g.Name])
      | .panic => .panic
      | .ok => checkFields parse rest := by
  simp only [cleanTag, yamlTag] at hg
  simp only [checkFields]
  split at hg <;> try simp at hg
  rename_i tag htag
  split at htag <;> try simp at htag
  rename_i ts hts
  split at htag <;> try simp at htag
  rename_i tag2 hget
  subst htag
  simp [hts, hget, hg]

theorem checkFields_single_ok (parse : TagParser) (f : StructField) (x : Value)
    (h : checkFields parse [(f, x)] = .ok) :
    cleanTag parse f = true ∧ checkForOmitEmptyTagOptionRec parse x = .ok := by
  simp only [checkFields] at h
  simp only [cleanTag, yamlTag]
  split at h <;> try simp at h
  rename_i ts hts
  split at h <;> try simp at h
  rename_i tag hget
  split at h <;> try simp at h
  rename_i hopt
  split at h <;> try simp at h
  rename_i hrec
  simp [hts, hget, hopt, hrec]

theorem checkFields_ok_mem (parse : TagParser) (fields : List (StructField × Value))
    (h : checkFields parse fields = .ok) (f : StructField) (x : Value)
    (hmem : (f, x) ∈ fields) :
    cleanTag parse f = true ∧ checkForOmitEmptyTagOptionRec parse x = .ok := by
  induction fields with
  | nil => simp at hmem
  | cons gy rest ih =>
    rw [checkFields_cons] at h
    cases hgy : checkFields parse [gy] with
    | ok =>
      rw [hgy] at h
      rcases List.mem_cons.mp hmem with heq | hrest
      · subst heq
        exact checkFields_single_ok parse f x hgy
      · exact ih h hrest
    | error e => rw [hgy] at h; simp at h
    | panic => rw [hgy] at h; simp at h

/-- A check that passes has passed at every field it can reach: the field has a
clean tag and the check of its value passes. -/
theorem check_ok_reaches (parse : TagParser) (v : Value) (path : List String)
    (f : StructField) (x : Value) (hr : Reaches v path f x)
    (h : checkForOmitEmptyTagOptionRec parse v = .ok) :
    cleanTag parse f = true ∧ checkForOmitEmptyTagOptionRec parse x = .ok := by
  induction hr with
  | field hmem =>
    simp only [checkForOmitEmptyTagOptionRec] at h
    exact checkFields_ok_mem parse _ h _ _ hmem
  | inner hmem _ ih =>
    simp only [checkForOmitEmptyTagOptionRec] at h
    exact ih (checkFields_ok_mem parse _ h _ _ hmem).2
  | iface _ ih =>
    simp only [checkForOmitEmptyTagOptionRec] at h
    exact ih h

/-- A failure at the first place where the check can stop comes back wrapped
with the names of the fields entered on the way. -/
theorem check_firstAt (parse : TagParser) (v : Value) (path : List String) (t : Value)
    (e : GoError) (hf : FirstAt parse v path t)
    (ht : checkForOmitEmptyTagOptionRec parse t = .error e) :
    checkForOmitEmptyTagOptionRec parse v = .error (wrapPath path e) := by
  induction hf with
  | here t => simpa [wrapPath] using ht
  | field hpre hg _ ih =>
    simp only [checkForOmitEmptyTagOptionRec]
    rw [checkFields_append parse _ _ hpre, checkFields_clean parse _ _ _ hg, ih ht]
    rfl
  | iface _ ih =>
    simp only [checkForOmitEmptyTagOptionRec]
    exact ih ht

/-- The message of a wrapped failure: the names of the fields entered, each
followed by a colon and a space, then the message of the failure. -/
theorem wrapPath_Error (quote : String → String) (path : List String) (e : GoError) :
    (wrapPath path e).Error quote = pathPrefix path ++ e.Error quote := by
  induction path with
  | nil => simp [wrapPath, pathPrefix]
  | cons name path ih =>
    have hs : Sprintf quote "%s" [name] = name := by
      show String.mk (name.data ++ []) = name
      simp
    simp only [wrapPath, GoError.Error, hs, ih, pathPrefix]
    simp [String.append_assoc]

/-- The interface case of the check is the check of `v.Elem()`. -/
theorem check_interface_elem (parse : TagParser) (dynamic : Option Value) :
    checkForOmitEmptyTagOptionRec parse (.Interface dynamic) =
      checkForOmitEmptyTagOptionRec parse (Value.Elem dynamic) := by
  cases dynamic <;> simp [checkForOmitEmptyTagOptionRec, Value.Elem]

/-- When the check passes, `generate` is the call of the encoder on the same
value and sink. -/
theorem generate_check_ok (parse : TagParser) (encode : Encoder) (obj : Iface) (w : Sink)
    (h : checkForOmitEmptyTagOption parse obj = .ok) :
    generate parse encode obj w = encode obj w := by
  simp [generate, h]

theorem holdsPointer_of_ok (parse : TagParser) :
    ∀ x : Value, checkForOmitEmptyTagOptionRec parse x = .ok → holdsPointer x = false
  | .Ptr _, h => by simp [checkForOmitEmptyTagOptionRec] at h
  | .Interface (some y), h => by
    simp only [checkForOmitEmptyTagOptionRec] at h
    simpa [holdsPointer] using holdsPointer_of_ok parse y h
  | .Interface none, _ => rfl
  | .Struct _, _ => rfl
  | .Invalid, _ => rfl
  | .Leaf _ _, _ => rfl
  | .Array _, _ => rfl
  | .Slice _, _ => rfl
  | .Map _, _ => rfl

theorem Get_error_of_no_key (ts : List Tag) (key : String)
    (h : ∀ tag ∈ ts, tag.Key ≠ key) : Get ts key = .error errTagNotExist := by
  induction ts with
  | nil => rfl
  | cons t ts ih =>
    simp only [Get]
    rw [if_neg (h t (List.mem_cons_self _ _))]
    exact ih (fun tag htag => h tag (List.mem_cons_of_mem _ htag))

theorem Get_key (ts : List Tag) (key : String) (tag : Tag)
    (h : Get ts key = .ok tag) : tag.Key = key := by
  induction ts with
  | nil => simp [Get] at h
  | cons t ts ih =>
    simp only [Get] at h
    split at h
    · rename_i hk
      injection h with h
      subst h
      exact hk
    · exact ih h

theorem carriesOmitempty_false_of_clean (parse : TagParser) (f : StructField)
    (h : cleanTag parse f = true) : carriesOmitempty parse f = false := by
  simp only [cleanTag] at h
  simp only [carriesOmitempty]
  split <;> simp_all

theorem yamlTag_of_clean (parse : TagParser) (f : StructField)
    (h : cleanTag parse f = true) :
    ∃ ts tag, parse f.Tag = .tags ts ∧ Get ts "yaml" = .ok tag := by
  simp only [cleanTag, yamlTag] at h
  split at h <;> try simp at h
  rename_i tag htag
  split at htag <;> try simp at htag
  rename_i ts hts
  split at htag <;> try simp at htag
  rename_i tag2 hget
  exact ⟨ts, tag2, hts, hget⟩

theorem checkFields_omitempty (parse : TagParser) (f : StructField) (x : Value)
    (rest : List (StructField × Value)) (h : carriesOmitempty parse f = true) :
    checkFields parse ((f, x) :: rest) =
      .error (.Errorf "omitempty is forbidden for config, but spotted on field '%s'" [f.Name]) := by
  simp only [carriesOmitempty, yamlTag] at h
  simp only [checkFields]
  split at h <;> try simp at h
  rename_i tag htag
  split at htag <;> try simp at htag
  rename_i ts hts
  split at htag <;> try simp at htag
  rename_i tag2 hget
  subst htag
  simp [hts, hget, h]

theorem GoMap.index_none_of_not_key (configs : GoMap) (key : String)
    (h : key ∉ configs.map Prod.fst) : configs.index key = none := by
  induction configs with
  | nil => rfl
  | cons kc rest ih =>
    obtain ⟨k, c⟩ := kc
    simp only [List.map_cons, List.mem_cons, not_or] at h
    simp only [GoMap.index]
    rw [if_neg (fun hk => h.1 hk.symm)]
    exact ih h.2

mutual
/-- A value that holds no pointer and all of whose fields have clean tags and
hold no pointer passes the check. -/
theorem rec_ok_of_clean (parse : TagParser) :
    ∀ v : Value, holdsPointer v = false →
      allFields (fun f x => cleanTag parse f && !holdsPointer x) v = true →
      checkForOmitEmptyTagOptionRec parse v = .ok
  | .Struct fields, _, h => by
    simp only [checkForOmitEmptyTagOptionRec]
    simp only [allFields] at h
    exact fields_ok_of_clean parse fields h
  | .Ptr _, hp, _ => by simp [holdsPointer] at hp
  | .Interface (some y), hp, h => by
    simp only [checkForOmitEmptyTagOptionRec]
    simp only [holdsPointer] at hp
    simp only [allFields] at h
    exact rec_ok_of_clean parse y hp h
  | .Interface none, _, _ => rfl
  | .Invalid, _, _ => rfl
  | .Leaf _ _, _, _ => rfl
  | .Array _, _, _ => rfl
  | .Slice _, _, _ => rfl
  | .Map _, _, _ => rfl
/-- The field loop passes on fields with clean tags that hold no pointer. -/
theorem fields_ok_of_clean (parse : TagParser) :
    ∀ fields : List (StructField × Value),
      allFieldsOfStruct (fun f x => cleanTag parse f && !holdsPointer x) fields = true →
      checkFields parse fields = .ok
  | [], _ => rfl
  | (f, x) :: rest, h => by
    simp only [allFieldsOfStruct, Bool.and_eq_true, Bool.not_eq_true'] at h
    obtain ⟨⟨⟨hclean, hptr⟩, hx⟩, hrest⟩ := h
    rw [checkFields_clean parse f x rest hclean, rec_ok_of_clean parse x hptr hx]
    exact fields_ok_of_clean parse rest hrest
end

/-! ### Messages -/

theorem Sprintf_name (quote : String → String) (name : String) :
    Sprintf quote "%s" [name] = name := by
  show String.mk (name.data ++ []) = name
  simp

theorem Sprintf_omitempty (quote : String → String) (name : String) :
    Sprintf quote "omitempty is forbidden for config, but spotted on field '%s'" [name] =
      "omitempty is forbidden for config, but spotted on field '" ++ name ++ "'" := by
  have h : SprintfChars quote
      "omitempty is forbidden for config, but spotted on field '%s'".data [name] =
      "omitempty is forbidden for config, but spotted on field '".data ++
        (name.data ++ "'".data) := rfl
  apply String.ext
  simp only [Sprintf, h, String.data_append, List.append_assoc]

theorem Sprintf_getTag (quote : String → String) (name tag : String) :
    Sprintf quote "%s: failed to get tag %q" [name, tag] =
      name ++ ": failed to get tag " ++ quote tag := by
  have h : SprintfChars quote "%s: failed to get tag %q".data [name, tag] =
      name.data ++ (": failed to get tag ".data ++ ((quote tag).data ++ [])) := rfl
  apply String.ext
  simp only [Sprintf, h, String.data_append, List.append_nil, List.append_assoc]

theorem Sprintf_notFound (quote : String → String) (name values : String) :
    Sprintf quote "%v struct not found. Possible values %v" [name, values] =
      name ++ " struct not found. Possible values " ++ values := by
  have h : SprintfChars quote "%v struct not found. Possible values %v".data [name, values] =
      name.data ++ (" struct not found. Possible values ".data ++ (values.data ++ [])) := rfl
  apply String.ext
  simp only [Sprintf, h, String.data_append, List.append_nil, List.append_assoc]

/-! ### The claims -/

/-- C4: when `checkForOmitEmptyTagOption` succeeds on a value, no struct field
reached from it through nested struct fields and interface wrappers (unwrapped
to their concrete value) carries the option `omitempty` in its `yaml` tag. -/
theorem check_ok_no_omitempty (parse : TagParser) (obj : Iface)
    (h : checkForOmitEmptyTagOption parse obj = .ok)
    (path : List String) (f : StructField) (x : Value)
    (hr : Reaches (ValueOf obj) path f x) :
    carriesOmitempty parse f = false :=
  carriesOmitempty_false_of_clean parse f (check_ok_reaches parse _ path f x hr h).1

/-- C9: on a value whose kind is neither Struct, Ptr nor Interface the
recursive check returns success, whatever the value contains. -/
theorem other_kinds_accepted (parse : TagParser) (v : Value)
    (hs : v.Kind ≠ .Struct) (hp : v.Kind ≠ .Ptr) (hi : v.Kind ≠ .Interface) :
    checkForOmitEmptyTagOptionRec parse v = .ok := by
  cases v with
  | Struct fields => exact absurd rfl hs
  | Ptr target => exact absurd rfl hp
  | Interface dynamic => exact absurd rfl hi
  | Invalid => rfl
  | Leaf kind literal => rfl
  | Array elems => rfl
  | Slice elems => rfl
  | Map entries => rfl

/-- C5: when the check of `obj` fails with `err`, `generate` returns `err`
wrapped with "invalid type" and leaves the sink as it was, whatever the
encoder is, so the encoder has not run; and whenever the check does not
succeed, the result of `generate` does not depend on the encoder. -/
theorem generate_check_failed (parse : TagParser) (encode : Encoder) (obj : Iface)
    (w : Sink) (err : GoError) (h : checkForOmitEmptyTagOption parse obj = .error err) :
    generate parse encode obj w = (w, .error (.Wrap err "invalid type")) ∧
    (∀ encode2 : Encoder, generate parse encode2 obj w = generate parse encode obj w) ∧
    (∀ (obj2 : Iface) (e1 e2 : Encoder), checkForOmitEmptyTagOption parse obj2 ≠ .ok →
      generate parse e1 obj2 w = generate parse e2 obj2 w ∧ (generate parse e1 obj2 w).1 = w) := by
  refine ⟨by simp [generate, h], fun encode2 => by simp [generate, h], ?_⟩
  intro obj2 e1 e2 hne
  cases hc : checkForOmitEmptyTagOption parse obj2 with
  | ok => exact absurd hc hne
  | error e => simp [generate, hc]
  | panic => simp [generate, hc]

/-- C7: for a provider name that is not a key of the registry, `main` logs the
error "<name> struct not found. Possible values ..." on standard error, writes
nothing to standard output and exits with status 1, whatever the parser and
the encoder are: `generate` is not called and the run does not panic. -/
theorem main_unknown_provider (parse : TagParser) (encode : Encoder) (configs : GoMap)
    (possibleValues : List String) (structName : String)
    (h : structName ∉ configs.map Prod.fst) :
    main parse encode configs possibleValues (.ok structName) =
      ⟨[], [.Errorf "%v struct not found. Possible values %v"
              [structName, String.intercalate "," possibleValues]], .exit 1⟩ ∧
    ∀ quote : String → String,
      (GoError.Errorf "%v struct not found. Possible values %v"
          [structName, String.intercalate "," possibleValues]).Error quote =
        structName ++ " struct not found. Possible values " ++
          String.intercalate "," possibleValues := by
  refine ⟨by simp [main, GoMap.index_none_of_not_key configs structName h], fun quote => ?_⟩
  simp only [GoError.Error, Sprintf_notFound]

/-- C1 (amended): when a field carrying `omitempty` in its `yaml` tag is the
first place where the check stops (it is reached through struct fields with
clean tags and interface wrappers, and in every struct on the way, its own
included, the fields before pass), `checkForOmitEmptyTagOption` fails with the
forbidden-option error naming the field, wrapped once per enclosing field with
that field's name; its message is the enclosing names, outermost first, each
followed by ": ", then the forbidden-option message. -/
theorem omitempty_first_fault (parse : TagParser) (v : Value) (path : List String)
    (pre post : List (StructField × Value)) (f : StructField) (x : Value)
    (hfirst : FirstAt parse v path (.Struct (pre ++ (f, x) :: post)))
    (hpre : ∀ fx ∈ pre, checkFields parse [fx] = .ok)
    (hom : carriesOmitempty parse f = true) :
    checkForOmitEmptyTagOption parse (some v) =
      .error (wrapPath path
        (.Errorf "omitempty is forbidden for config, but spotted on field '%s'" [f.Name])) ∧
    ∀ quote : String → String,
      (wrapPath path
        (.Errorf "omitempty is forbidden for config, but spotted on field '%s'"
          [f.Name])).Error quote =
        pathPrefix path ++
          ("omitempty is forbidden for config, but spotted on field '" ++ f.Name ++ "'") := by
  constructor
  · apply check_firstAt parse v path _ _ hfirst
    simp only [checkForOmitEmptyTagOptionRec]
    rw [checkFields_append parse pre _ hpre, checkFields_omitempty parse f x post hom]
  · intro quote
    rw [wrapPath_Error]
    simp only [GoError.Error, Sprintf_omitempty]

/-- C3 (amended): when a pointer, nil or not, is the first place where the
check stops (reached through struct fields with clean tags and interface
wrappers, the fields before passing), `checkForOmitEmptyTagOption` fails with
the nil-pointer error wrapped with the names of the fields entered, whatever
the pointer points to, and `generate` returns that error wrapped with
"invalid type" and leaves the sink as it was, whatever the encoder is. -/
theorem pointer_first_fault (parse : TagParser) (encode : Encoder) (v : Value)
    (path : List String) (target : Option Value) (w : Sink)
    (hfirst : FirstAt parse v path (.Ptr target)) :
    checkForOmitEmptyTagOption parse (some v) =
      .error (wrapPath path (.New "nil pointers are not allowed in configuration")) ∧
    generate parse encode (some v) w =
      (w, .error (.Wrap (wrapPath path (.New "nil pointers are not allowed in configuration"))
        "invalid type")) := by
  have hc : checkForOmitEmptyTagOption parse (some v) =
      .error (wrapPath path (.New "nil pointers are not allowed in configuration")) := by
    apply check_firstAt parse v path _ _ hfirst
    simp only [checkForOmitEmptyTagOptionRec]
  exact ⟨hc, by simp [generate, hc]⟩

/-- C8 (amended): when `checkForOmitEmptyTagOption` succeeds on a value, no field
reached from it through nested struct fields and non-nil interface wrappers is
a pointer, nil or not, or an interface holding a pointer. -/
theorem check_ok_no_pointer (parse : TagParser) (obj : Iface)
    (h : checkForOmitEmptyTagOption parse obj = .ok)
    (path : List String) (f : StructField) (x : Value)
    (hr : Reaches (ValueOf obj) path f x) :
    holdsPointer x = false ∧ x.Kind ≠ .Ptr := by
  have hx := holdsPointer_of_ok parse x (check_ok_reaches parse _ path f x hr h).2
  refine ⟨hx, ?_⟩
  cases x <;> simp [Value.Kind, holdsPointer, LeafKind.toKind] at hx ⊢
  rename_i k _
  cases k <;> simp

/-- C10 (amended): in a struct with a field whose tag parses to a tag set (a
non-nil `*Tags`) without a `yaml` key, all the fields before it passing,
`checkForOmitEmptyTagOption` fails with the "failed to get tag" error naming
that field and quoting its tag; and when the check succeeds on a value, every
field reached from it through struct and interface nesting declares a `yaml`
tag. -/
theorem missing_yaml_tag (parse : TagParser) (pre post : List (StructField × Value))
    (f : StructField) (x : Value) (ts : List Tag)
    (hpre : ∀ fx ∈ pre, checkFields parse [fx] = .ok)
    (hparse : parse f.Tag = .tags ts)
    (hkey : ∀ tag ∈ ts, tag.Key ≠ "yaml") :
    checkForOmitEmptyTagOption parse (some (.Struct (pre ++ (f, x) :: post))) =
      .error (.Wrapf errTagNotExist "%s: failed to get tag %q" [f.Name, f.Tag]) ∧
    (∀ quote : String → String,
      (GoError.Wrapf errTagNotExist "%s: failed to get tag %q" [f.Name, f.Tag]).Error quote =
        f.Name ++ ": failed to get tag " ++ quote f.Tag ++ ": " ++ "tag does not exist") ∧
    (∀ (obj : Iface) (path : List String) (g : StructField) (y : Value),
      checkForOmitEmptyTagOption parse obj = .ok → Reaches (ValueOf obj) path g y →
      ∃ ts2 tag, parse g.Tag = .tags ts2 ∧ Get ts2 "yaml" = .ok tag ∧ tag.Key = "yaml") := by
  refine ⟨?_, fun quote => ?_, ?_⟩
  · show checkForOmitEmptyTagOptionRec parse _ = _
    simp only [checkForOmitEmptyTagOptionRec]
    rw [checkFields_append parse pre _ hpre]
    simp only [checkFields, hparse, Get_error_of_no_key ts "yaml" hkey]
  · simp only [GoError.Error, Sprintf_getTag, errTagNotExist]
  · intro obj path g y hok hr
    obtain ⟨ts2, tag, h1, h2⟩ := yamlTag_of_clean parse g (check_ok_reaches parse _ path g y hr hok).1
    exact ⟨ts2, tag, h1, h2, Get_key ts2 "yaml" tag h2⟩

/-- C2 (amended): a struct in which every field, at any nesting depth, has a tag
that parses to a tag set whose `yaml` entry does not carry `omitempty`, and in
which no field is a pointer or an interface holding a pointer, passes
`checkForOmitEmptyTagOption`. -/
theorem clean_struct_accepted (parse : TagParser) (fields : List (StructField × Value))
    (h : allFields (fun f x => cleanTag parse f && !holdsPointer x) (.Struct fields) = true) :
    checkForOmitEmptyTagOption parse (some (.Struct fields)) = .ok :=
  rec_ok_of_clean parse (.Struct fields) rfl h

/-! ### The claims on sample values -/

/-- C1, as stated, fails: in `samplePointerBeforeOmitempty` the field
`Outer.Field` carries `omitempty`, and the check stops at the pointer `Outer.P`
before it: the error is the nil-pointer error, not the forbidden-option one.
And in `sampleNested`, where the field `Outer.Inner.Timeout` is the only
defect, the message of the error joins the names with ": " and has no dot. -/
theorem omitempty_claim_counterexample :
    (Reaches samplePointerBeforeOmitempty ["Outer"]
       ⟨"Field", "yaml:\"field,omitempty\""⟩ (.Leaf .String "") ∧
     carriesOmitempty Parse ⟨"Field", "yaml:\"field,omitempty\""⟩ = true ∧
     checkForOmitEmptyTagOption Parse (some samplePointerBeforeOmitempty) =
       .error (.Wrapf (.Wrapf (.New "nil pointers are not allowed in configuration")
         "%s" ["P"]) "%s" ["Outer"])) ∧
    (checkForOmitEmptyTagOption Parse (some sampleNested) =
       .error (.Wrapf (.Wrapf
         (.Errorf "omitempty is forbidden for config, but spotted on field '%s'" ["Timeout"])
         "%s" ["Inner"]) "%s" ["Outer"]) ∧
     (GoError.Wrapf (.Wrapf
         (.Errorf "omitempty is forbidden for config, but spotted on field '%s'" ["Timeout"])
         "%s" ["Inner"]) "%s" ["Outer"]).Error id =
       "Outer: Inner: omitempty is forbidden for config, but spotted on field 'Timeout'" ∧
     '.' ∉ "Outer: Inner: omitempty is forbidden for config, but spotted on field 'Timeout'".data) := by
  refine ⟨⟨?_, by decide, by decide⟩, by decide, rfl, by decide⟩
  exact @Reaches.inner _ ⟨"Outer", "yaml:\"outer\""⟩ _ [] _ _ (List.mem_cons_self _ _)
    (Reaches.field (List.mem_cons_of_mem _ (List.mem_cons_self _ _)))

/-- C1 (amended) on `sampleNested`: the error for `Outer.Inner.Timeout`. -/
theorem omitempty_first_fault_witness :
    checkForOmitEmptyTagOption Parse (some sampleNested) =
      .error (wrapPath ["Outer", "Inner"]
        (.Errorf "omitempty is forbidden for config, but spotted on field '%s'" ["Timeout"])) ∧
    ∀ quote : String → String,
      (wrapPath ["Outer", "Inner"]
        (.Errorf "omitempty is forbidden for config, but spotted on field '%s'"
          ["Timeout"])).Error quote =
        "Outer: Inner: omitempty is forbidden for config, but spotted on field 'Timeout'" :=
  omitempty_first_fault Parse sampleNested ["Outer", "Inner"]
    [(⟨"Idle", "yaml:\"idle\""⟩, .Leaf .Int64 "0")]
    [(⟨"Debug", "yaml:\"debug\""⟩, .Leaf .Bool "false")]
    ⟨"Timeout", "yaml:\"timeout,omitempty\""⟩ (.Leaf .Int64 "0")
    (@FirstAt.field Parse [(⟨"Bucket", "yaml:\"bucket\""⟩, .Leaf .String "")] []
      ⟨"Outer", "yaml:\"outer\""⟩ _ _ _ (by decide) (by decide)
      (@FirstAt.field Parse [] [] ⟨"Inner", "yaml:\"inner\""⟩ _ _ _ (by decide) (by decide)
        (FirstAt.here _)))
    (by decide) (by decide)

/-- C2, as stated, fails: `sampleUntagged` has no `omitempty` and no pointer
field, and its untagged field is refused; `sampleInterfaceWithPointer` has no
`omitempty` and no pointer-typed field, and the pointer its interface field
holds is refused. -/
theorem clean_claim_counterexample :
    (allFields (fun f _ => !carriesOmitempty Parse f) sampleUntagged = true ∧
     allFields (fun _ x => x.Kind != .Ptr) sampleUntagged = true ∧
     checkForOmitEmptyTagOption Parse (some sampleUntagged) =
       .error (.Wrapf errTagNotExist "%s: failed to get tag %q" ["A", ""])) ∧
    (allFields (fun f _ => !carriesOmitempty Parse f) sampleInterfaceWithPointer = true ∧
     allFields (fun _ x => x.Kind != .Ptr) sampleInterfaceWithPointer = true ∧
     checkForOmitEmptyTagOption Parse (some sampleInterfaceWithPointer) =
       .error (.Wrapf (.New "nil pointers are not allowed in configuration")
         "%s" ["Config"])) := by
  decide

/-- C2 (amended) on `sampleClean`. -/
theorem clean_struct_accepted_witness :
    checkForOmitEmptyTagOption Parse (some sampleClean) = .ok :=
  clean_struct_accepted Parse _ (by decide)

/-- C3, as stated, fails: `samplePointerInSlice` contains a pointer-typed
field, passes the check and reaches the encoder; `sampleOmitemptyBeforePointer`
contains a pointer-typed field and fails with the forbidden-option error. -/
theorem pointer_claim_counterexample :
    (allFields (fun _ x => x.Kind != .Ptr) samplePointerInSlice = false ∧
     checkForOmitEmptyTagOption Parse (some samplePointerInSlice) = .ok ∧
     generate Parse markEncoder (some samplePointerInSlice) [] = (['#'], .ok)) ∧
    (allFields (fun _ x => x.Kind != .Ptr) sampleOmitemptyBeforePointer = false ∧
     checkForOmitEmptyTagOption Parse (some sampleOmitemptyBeforePointer) =
       .error (.Errorf "omitempty is forbidden for config, but spotted on field '%s'"
         ["Region"])) := by
  decide

/-- C3 (amended) on `sampleNestedPointer`, whose pointer `Outer.P` is not nil. -/
theorem pointer_first_fault_witness :
    checkForOmitEmptyTagOption Parse (some sampleNestedPointer) =
      .error (wrapPath ["Outer", "P"] (.New "nil pointers are not allowed in configuration")) ∧
    generate Parse markEncoder (some sampleNestedPointer) [] =
      ([], .error (.Wrap (wrapPath ["Outer", "P"]
        (.New "nil pointers are not allowed in configuration")) "invalid type")) :=
  pointer_first_fault Parse markEncoder sampleNestedPointer ["Outer", "P"]
    (some (.Leaf .Int "0")) []
    (@FirstAt.field Parse [(⟨"Bucket", "yaml:\"bucket\""⟩, .Leaf .String "")] []
      ⟨"Outer", "yaml:\"outer\""⟩ _ _ _ (by decide) (by decide)
      (@FirstAt.field Parse [] [] ⟨"P", "yaml:\"p\""⟩ _ _ _ (by decide) (by decide)
        (FirstAt.here _)))

/-- C4 on `sampleClean`: the check passes and the nested field
`HTTPConfig.Insecure` does not carry `omitempty`. -/
theorem check_ok_no_omitempty_witness :
    checkForOmitEmptyTagOption Parse (some sampleClean) = .ok ∧
    carriesOmitempty Parse ⟨"Insecure", "yaml:\"insecure_skip_verify\""⟩ = false :=
  ⟨by decide,
   check_ok_no_omitempty Parse (some sampleClean) (by decide) ["HTTPConfig"]
     ⟨"Insecure", "yaml:\"insecure_skip_verify\""⟩ (.Leaf .Bool "false")
     (@Reaches.inner _ ⟨"HTTPConfig", "yaml:\"http_config\""⟩ _ [] _ _
       (List.mem_cons_of_mem _ (List.mem_cons_self _ _))
       (Reaches.field (List.mem_cons_self _ _)))⟩

/-- C5 on `sampleS3Omitempty`: the error of the check comes back wrapped and the
sink keeps its content; a run of `main` on it writes nothing and exits with
status 1. -/
theorem generate_check_failed_witness :
    checkForOmitEmptyTagOption Parse (some sampleS3Omitempty) =
      .error (.Errorf "omitempty is forbidden for config, but spotted on field '%s'"
        ["Region"]) ∧
    generate Parse markEncoder (some sampleS3Omitempty) ['a'] =
      (['a'], .error (.Wrap
        (.Errorf "omitempty is forbidden for config, but spotted on field '%s'" ["Region"])
        "invalid type")) ∧
    main Parse markEncoder [("s3.Config", some sampleS3Omitempty)] ["s3.Config"]
        (.ok "s3.Config") =
      ⟨[], [.Wrap
        (.Errorf "omitempty is forbidden for config, but spotted on field '%s'" ["Region"])
        "invalid type"], .exit 1⟩ :=
  ⟨by decide,
   (generate_check_failed Parse markEncoder (some sampleS3Omitempty) ['a']
     (.Errorf "omitempty is forbidden for config, but spotted on field '%s'" ["Region"])
     (by decide)).1,
   by decide⟩

/-- C7 on a registry with the single key `s3.Config`, asked for `gcs.Config`. -/
theorem main_unknown_provider_witness :
    main Parse markEncoder [("s3.Config", some sampleS3)] ["s3.Config"] (.ok "gcs.Config") =
      ⟨[], [.Errorf "%v struct not found. Possible values %v" ["gcs.Config", "s3.Config"]],
        .exit 1⟩ :=
  (main_unknown_provider Parse markEncoder [("s3.Config", some sampleS3)] ["s3.Config"]
    "gcs.Config" (by decide)).1

/-- C8, as stated, fails: `sampleNilInterface` passes the check and its field
`Config` is a nil interface. -/
theorem concrete_claim_counterexample :
    checkForOmitEmptyTagOption Parse (some sampleNilInterface) = .ok ∧
    allFields (fun _ x => !isNil x) sampleNilInterface = false := by
  decide

/-- C8 (amended) on `sampleClean`: the nested field `HTTPConfig.Insecure` holds
no pointer. -/
theorem check_ok_no_pointer_witness :
    checkForOmitEmptyTagOption Parse (some sampleClean) = .ok ∧
    holdsPointer (.Leaf .Bool "false") = false ∧ (Value.Leaf .Bool "false").Kind ≠ .Ptr :=
  ⟨by decide,
   check_ok_no_pointer Parse (some sampleClean) (by decide) ["HTTPConfig"]
     ⟨"Insecure", "yaml:\"insecure_skip_verify\""⟩ (.Leaf .Bool "false")
     (@Reaches.inner _ ⟨"HTTPConfig", "yaml:\"http_config\""⟩ _ [] _ _
       (List.mem_cons_of_mem _ (List.mem_cons_self _ _))
       (Reaches.field (List.mem_cons_self _ _)))⟩

/-- C9 on `sampleSlice`, a slice holding a nil pointer and a struct with an
`omitempty` field. -/
theorem other_kinds_accepted_witness :
    checkForOmitEmptyTagOptionRec Parse sampleSlice = .ok :=
  other_kinds_accepted Parse sampleSlice (by decide) (by decide) (by decide)

/-- C10, as stated, fails: in `sampleBlankTag` the tag of the field `A`, a
single space, parses without error and has no `yaml` key, and the field before
it passes; `Parse` gives a nil tag set, `Get` is called on it, and the check
panics instead of returning the "failed to get tag" error; so does a run of
`main` on it. -/
theorem missing_yaml_tag_claim_counterexample :
    Parse " " = .nilTags ∧
    checkFields Parse [(⟨"Bucket", "yaml:\"bucket\""⟩, .Leaf .String "")] = .ok ∧
    checkForOmitEmptyTagOption Parse (some sampleBlankTag) = .panic ∧
    checkForOmitEmptyTagOption Parse (some sampleBlankTag) ≠
      .error (.Wrapf errTagNotExist "%s: failed to get tag %q" ["A", " "]) ∧
    main Parse markEncoder [("s3.Config", some sampleBlankTag)] ["s3.Config"]
        (.ok "s3.Config") = ⟨[], [], .panic⟩ := by
  decide

/-- C10 (amended) on `sampleSecondUntagged`: the untagged field `A` is refused. -/
theorem missing_yaml_tag_witness :
    Parse "" = .tags [] ∧
    checkForOmitEmptyTagOption Parse (some sampleSecondUntagged) =
      .error (.Wrapf errTagNotExist "%s: failed to get tag %q" ["A", ""]) :=
  ⟨by decide,
   (missing_yaml_tag Parse [(⟨"Bucket", "yaml:\"bucket\""⟩, .Leaf .String "")]
     [(⟨"B", "yaml:\"b,omitempty\""⟩, .Leaf .String "")] ⟨"A", ""⟩ (.Leaf .String "") []
     (by decide) (by decide) (by simp)).1⟩

end cfggen
